import Mathlib

/-!
Verification of the restaurant-recommendation assistant's orchestration core.

The definitions below are shallow embeddings of the TypeScript source:
the multi-provider chat route (`app/api/chat/route.ts` in its two versions,
the named one and the multi-provider one), the provider registry
(`lib/ai-providers.ts`), the Gemini adapter (`lib/gemini.ts`) and the Reddit
collaborator (`lib/reddit.ts`).  Network calls are represented by explicit
`Except`-valued outcomes passed in as arguments; wall-clock behaviour is
represented by symbolic millisecond durations.
-/

namespace RestaurantRec

/-! ## Provider registry (`lib/ai-providers.ts`) -/

/-- `AIProvider` descriptor from `lib/ai-providers.ts`. -/
structure AIProvider where
  name : String
  enabled : Bool
  priority : Nat
deriving DecidableEq, Repr

/-- The static provider table `AI_PROVIDERS`. -/
def AI_PROVIDERS : List AIProvider :=
  [⟨"gemini", true, 1⟩, ⟨"openai", true, 2⟩]

def geminiProvider : AIProvider := ⟨"gemini", true, 1⟩

def openaiProvider : AIProvider := ⟨"openai", true, 2⟩

/-- Presence of the two provider credentials; the module-level client
objects exist exactly when the corresponding key is present, so the
`!!key && !!client` test of the source collapses to the key check. -/
structure Env where
  openaiKey : Bool
  geminiKey : Bool
deriving DecidableEq, Repr

/-- Availability predicate of `getAvailableProviders`. -/
def providerAvailable (env : Env) (p : AIProvider) : Bool :=
  if p.name = "openai" then env.openaiKey
  else if p.name = "gemini" then env.geminiKey
  else false

/-- Stable insertion used to model `.sort((a, b) => a.priority - b.priority)`:
an element is inserted after all strictly smaller priorities and after
equal ones, preserving the original relative order of ties. -/
def insertByPriority (p : AIProvider) : List AIProvider → List AIProvider
  | [] => [p]
  | q :: rest =>
    if p.priority < q.priority then p :: q :: rest else q :: insertByPriority p rest

def sortByPriority (l : List AIProvider) : List AIProvider :=
  l.foldr insertByPriority []

/-- `getAvailableProviders()`: filter the static table by credential
presence, then sort ascending by priority. -/
def getAvailableProviders (env : Env) : List AIProvider :=
  sortByPriority (AI_PROVIDERS.filter (providerAvailable env))

/-! ## Provider selection and attempt order (multi-provider route `POST`) -/

/-- `selectedProvider`: `availableProviders[0]`, replaced by the preferred
provider when one is named and found among the available ones. -/
def selectProvider (avail : List AIProvider) (preferred : Option String) :
    Option AIProvider :=
  match avail with
  | [] => none
  | a0 :: _ =>
    match preferred with
    | none => some a0
    | some p =>
      match avail.find? (fun q => q.name = p) with
      | some q => some q
      | none => some a0

/-- The sequence of providers the failover loop actually attempts:
iteration `i` uses `i === 0 ? selectedProvider : availableProviders[i]`. -/
def attemptOrder (avail : List AIProvider) (preferred : Option String) :
    List AIProvider :=
  match avail with
  | [] => []
  | a0 :: rest => ((selectProvider avail preferred).getD a0) :: rest

/-- Modelled from the spec: the attempt order the specification describes,
namely the preferred provider moved to the front of the availability list,
with the remaining available providers following in their priority order. -/
def specAttemptOrder (avail : List AIProvider) (preferred : Option String) :
    List AIProvider :=
  match preferred with
  | none => avail
  | some p =>
    match avail.find? (fun q => q.name = p) with
    | none => avail
    | some q => q :: avail.filter (fun r => r.name ≠ q.name)

/-- The failover loop: try each provider in order; a successful turn breaks
with the message and the name of the provider that produced it; a failing
turn advances, and a failure of the last provider propagates. -/
def runFailover (turnOf : AIProvider → Except String String) :
    List AIProvider → Except String (String × String)
  | [] => Except.error "no providers"
  | [p] => (turnOf p).map (fun m => (m, p.name))
  | p :: q :: rest =>
    match turnOf p with
    | Except.ok m => Except.ok (m, p.name)
    | Except.error _ => runFailover turnOf (q :: rest)

/-- Environment with both provider keys present. -/
def fullEnv : Env := ⟨true, true⟩

/-- A provider behaviour in which every OpenAI turn raises and every other
provider turn succeeds. -/
def openaiAlwaysFails : AIProvider → Except String String :=
  fun p => if p.name = "openai" then Except.error "boom" else Except.ok "hello"

end RestaurantRec

namespace RestaurantRec

/-! ## Source accumulation and deduplication -/

/-- The collaborator result shape the tool executor reads: the only field
the orchestration consumes is `sources`. -/
structure CollabResult where
  sources : List String
deriving DecidableEq, Repr

/-- Error payload produced by the tool executor on failure. -/
structure ErrorPayload where
  error : String
  fallback : String
deriving DecidableEq, Repr

inductive ToolPayload where
  | ok (r : CollabResult)
  | err (e : ErrorPayload)
deriving DecidableEq, Repr

/-- The `{ result, sources }` pair returned by `executeToolCall`. -/
structure ToolExecResult where
  result : ToolPayload
  sources : List String
deriving DecidableEq, Repr

/-- All sources of all tool results of a request, in encounter order. -/
def concatSources (results : List ToolExecResult) : List String :=
  (results.map (·.sources)).flatten

/-- JavaScript `Array.prototype.indexOf` (first index of the value);
the call sites only apply it to members of the list, so the JS `-1`
for an absent value never arises. -/
def jsIndexOf : List String → String → Nat
  | [], _ => 0
  | t :: rest, s => if s = t then 0 else jsIndexOf rest s + 1

/-- Pair every element with its index, starting at `n`. -/
def indexed : Nat → List String → List (Nat × String)
  | _, [] => []
  | n, s :: rest => (n, s) :: indexed (n + 1) rest

/-- The multi-provider route's final cleanup
`sources.filter((source, index, array) => array.indexOf(source) === index)`:
keep an element exactly when its position is the first occurrence. -/
def jsUniqueFilter (arr : List String) : List String :=
  ((indexed 0 arr).filter (fun p => jsIndexOf arr p.2 = p.1)).map Prod.snd

/-- Membership test on the accumulator of already seen strings. -/
def seenContains (seen : List String) (s : String) : Bool :=
  seen.any (fun t => t = s)

/-- First-occurrence deduplication with an accumulator of already seen
strings; this is both the semantics of a JavaScript `Set` built by
insertion and the wording of the specification (duplicates removed,
order of first appearance preserved). -/
def insertOrderDedup (seen : List String) : List String → List String
  | [] => []
  | s :: rest =>
    if seenContains seen s then insertOrderDedup seen rest
    else s :: insertOrderDedup (s :: seen) rest

/-- Modelled from the spec: duplicates removed keeping only the first
occurrence of each string. -/
def dedupFirst (l : List String) : List String :=
  insertOrderDedup [] l

/-- Envelope sources of the multi-provider route: the `indexOf` filter
applied to the accumulated sources. -/
def part001FinalSources (results : List ToolExecResult) : List String :=
  jsUniqueFilter (concatSources results)

/-- Envelope sources of `app/api/chat/route.ts`:
`Array.from(new Set(sources.filter(source => source && source.length > 0)))`,
that is, drop empty strings, then first-occurrence deduplication. -/
def routeFinalSources (results : List ToolExecResult) : List String :=
  dedupFirst ((concatSources results).filter (fun s => s ≠ ""))

/-! ## Tool executor (`executeToolCall` of the multi-provider route) -/

/-- The fixed fallback hint of the executor's catch branch. -/
def part001FallbackText (toolName : String) : String :=
  "I\x27m having trouble accessing " ++ toolName ++
    " right now. Please try asking your question in a different way."

/-- `executeToolCall(toolName, args)` of the multi-provider route.  The
collaborator calls `searchReddit` and `searchWeb` are passed in as
`Except`-valued outcomes (`Except.error` is a thrown error, including a
thrown timeout).  The unknown-tool branch throws inside the same `try`, so
all three failure modes land in the single catch, which builds the
error-shaped result with empty sources.  On success the executor reads
`result.sources` (the `|| []` default never fires for the typed results). -/
def part001ExecuteToolCall (toolName : String)
    (redditOutcome webOutcome : Except String CollabResult) : ToolExecResult :=
  let attempt : Except String CollabResult :=
    if toolName = "search_reddit" then redditOutcome
    else if toolName = "search_web" then webOutcome
    else Except.error ("Unknown tool: " ++ toolName)
  match attempt with
  | Except.ok r => ⟨ToolPayload.ok r, r.sources⟩
  | Except.error msg =>
    ⟨ToolPayload.err ⟨"Search temporarily unavailable: " ++ msg,
        part001FallbackText toolName⟩, []⟩

/-- A tool outcome of the inline executor of `app/api/chat/route.ts`: a
success carries the collaborator result, a failure carries the `error`
string and the `fallback` field when the code sets one. -/
inductive RouteToolExec where
  | success (r : CollabResult)
  | failure (error : String) (fallback : Option String)
deriving DecidableEq, Repr

/-- The inline per-tool-call handling of `app/api/chat/route.ts`: unconfigured
tools short-circuit to an error payload with a fallback; a thrown collaborator
error (including the `Promise.race` timeout rejection) is caught into an
error payload with a fallback; the `default` branch of the `switch` builds
`{ error: Unknown tool }` with no `fallback` field and does not throw. -/
def routeExecuteTool (toolName : String)
    (redditConfigured webConfigured : Bool)
    (outcome : Except String CollabResult) : RouteToolExec :=
  if toolName = "search_reddit" then
    if !redditConfigured then
      RouteToolExec.failure "Reddit search not configured"
        (some "Using general knowledge for recommendations")
    else
      match outcome with
      | Except.ok r => RouteToolExec.success r
      | Except.error msg =>
        RouteToolExec.failure ("search_reddit failed: " ++ msg)
          (some "Providing general recommendations based on available knowledge")
  else if toolName = "search_web" then
    if !webConfigured then
      RouteToolExec.failure "Web search not configured"
        (some "Using general knowledge for recommendations")
    else
      match outcome with
      | Except.ok r => RouteToolExec.success r
      | Except.error msg =>
        RouteToolExec.failure ("search_web failed: " ++ msg)
          (some "Providing general recommendations based on available knowledge")
  else
    RouteToolExec.failure ("Unknown tool: " ++ toolName) none

/-! ## Per-turn final-generation behaviour -/

/-- JavaScript `x || d` for a possibly absent, possibly empty string. -/
def jsOr (c : Option String) (d : String) : String :=
  match c with
  | none => d
  | some s => if s = "" then d else s

/-- Apology used by the multi-provider route when the final completion
returns empty content. -/
def part001Apology : String :=
  "I apologize, but I encountered an issue processing your request."

/-- Apology of `route.ts` when the final completion returns empty content. -/
def routeEmptyApology : String :=
  "I apologize, but I encountered an issue processing your request. " ++
    "However, I can still help with general restaurant recommendations."

/-- Apology of `route.ts` when the final completion throws. -/
def routeCatchApology : String :=
  "I found some information but had trouble processing it. " ++
    "Let me provide what I can based on your request."

/-- The final-generation step of the multi-provider route's OpenAI branch:
the second `openai.chat.completions.create` call is not wrapped in its own
`try`, so a thrown error propagates out of the turn to the failover loop;
only a missing or empty `content` is replaced by the apology. -/
def part001FinalMessage (finalOutcome : Except String (Option String)) :
    Except String String :=
  match finalOutcome with
  | Except.error e => Except.error e
  | Except.ok content => Except.ok (jsOr content part001Apology)

/-- The final-generation step of `route.ts`: the call sits in a `try` whose
catch substitutes an apology, and empty content is replaced by another
apology, so some text is always produced. -/
def routeFinalMessage (finalOutcome : Except String (Option String)) : String :=
  match finalOutcome with
  | Except.error _ => routeCatchApology
  | Except.ok content => jsOr content routeEmptyApology

/-- The first generation call's reply: `content` (possibly `null`) and the
list of requested tool calls (only their names matter to the turn shape). -/
structure FirstResponse where
  content : Option String
  toolCalls : List String
deriving DecidableEq, Repr

/-- The OpenAI turn of the multi-provider route, given the outcome of the
first generation call and (when tool calls are present) the outcome of the
final one.  Tool execution itself cannot fail the turn (the executor is
total), so it is absorbed into the final outcome's conversation.  A thrown
first or final call leaves the turn as an error for the failover loop;
`Except.ok` is the DONE state. -/
def part001OpenAITurn (first : Except String FirstResponse)
    (finalOutcome : Except String (Option String)) : Except String String :=
  match first with
  | Except.error e => Except.error e
  | Except.ok r =>
    if r.toolCalls.isEmpty then Except.ok (jsOr r.content "")
    else part001FinalMessage finalOutcome

/-- The same turn shape for `route.ts` after a successful first call
(a thrown first call is answered by the handler's HTTP error path, not by
a DONE turn). -/
def routeTurn (r : FirstResponse)
    (finalOutcome : Except String (Option String)) : String :=
  if r.toolCalls.isEmpty then jsOr r.content "" else routeFinalMessage finalOutcome

/-! ## Request validation -/

/-- An incoming message as seen before validation: either field may be
absent (`none`) or present with any string value. -/
structure RawMessage where
  role : Option String
  content : Option String
deriving DecidableEq, Repr

/-- JavaScript truthiness of an optional string: absent and empty are falsy. -/
def truthy : Option String → Bool
  | none => false
  | some s => s ≠ ""

def validRoles : List String := ["user", "assistant", "system"]

/-- JavaScript `array.includes(value)` on a string array. -/
def jsArrayIncludes (l : List String) (s : String) : Bool :=
  l.any (fun t => t = s)

/-- Outcome of request validation: `ok`, or which 400 response fired. -/
inductive RouteValidation where
  | ok
  | badArray
  | badFormat (i : Nat)
  | badRole (i : Nat) (role : String)
deriving DecidableEq, Repr

/-- The per-message loop of `route.ts`: for each index, first the
missing-role/content check, then the role whitelist check. -/
def checkMessages : Nat → List RawMessage → RouteValidation
  | _, [] => RouteValidation.ok
  | i, m :: rest =>
    if !truthy m.role || !truthy m.content then RouteValidation.badFormat i
    else if !(jsArrayIncludes validRoles (m.role.getD "")) then
      RouteValidation.badRole i (m.role.getD "")
    else checkMessages (i + 1) rest

/-- Validation of `app/api/chat/route.ts`: reject a missing or empty
`messages` array, then check each message's shape and role. -/
def routeValidate (messages : Option (List RawMessage)) : RouteValidation :=
  match messages with
  | none => RouteValidation.badArray
  | some ms =>
    if ms.length = 0 then RouteValidation.badArray else checkMessages 0 ms

/-- Validation of the multi-provider route: only the missing/empty
`messages` array check exists; message shapes and roles are not examined. -/
def part001Validate (messages : Option (List RawMessage)) : RouteValidation :=
  match messages with
  | none => RouteValidation.badArray
  | some ms =>
    if ms.length = 0 then RouteValidation.badArray else RouteValidation.ok

/-- `route.ts` calls the OpenAI completion exactly when validation passed
(the environment check precedes validation and is independent of it). -/
def routeProviderAttempts (messages : Option (List RawMessage)) : Nat :=
  match routeValidate messages with
  | RouteValidation.ok => 1
  | _ => 0

/-- Claim-side predicate: the request shapes the specification requires the
endpoint to reject with a 400. -/
def malformedList (ms : List RawMessage) : Prop :=
  ms = [] ∨ ∃ m ∈ ms, m.role = none ∨ m.content = none ∨
    ∃ r, m.role = some r ∧ r ∉ validRoles

/-! ## 400 error response bodies -/

/-- The error body shape of `route.ts`: `{ error, details?, timestamp }`,
where `timestamp` is `new Date().toISOString()` at response time. -/
structure ErrorResponseBody where
  error : String
  details : Option String
  timestamp : String
deriving DecidableEq, Repr

/-- The HTTP status and body `route.ts` produces for each validation
failure, given the current time string. -/
def routeValidationResponse (v : RouteValidation) (now : String) :
    Option (Nat × ErrorResponseBody) :=
  match v with
  | RouteValidation.ok => none
  | RouteValidation.badArray =>
    some (400, ⟨"Invalid request",
      some "Messages array is required and cannot be empty", now⟩)
  | RouteValidation.badFormat i =>
    some (400, ⟨"Invalid message format",
      some ("Message at index " ++ toString i ++ " must have valid role and content"), now⟩)
  | RouteValidation.badRole i r =>
    some (400, ⟨"Invalid message role",
      some ("Message at index " ++ toString i ++ " has invalid role: " ++ r), now⟩)

/-- The multi-provider route's 400 body for an invalid messages array:
a bare `{ error }` object with no timestamp. -/
def part001ValidationResponse (v : RouteValidation) : Option (Nat × String) :=
  match v with
  | RouteValidation.ok => none
  | _ => some (400, "Messages array is required and cannot be empty.")

/-! ## Gemini adapter text protocol (`lib/gemini.ts`) -/

/-- Substring occurrence on character lists. -/
def subOccurs (pat : List Char) : List Char → Bool
  | [] => pat.isEmpty
  | c :: rest => pat.isPrefixOf (c :: rest) || subOccurs pat rest

/-- JavaScript `s.includes(pat)`. -/
def jsIncludes (s pat : String) : Bool :=
  subOccurs pat.data s.data

/-- Split a character list at a separator character; like JavaScript
`split`, adjacent separators and boundary separators yield empty parts. -/
def splitOnChar (sep : Char) : List Char → List (List Char)
  | [] => [[]]
  | c :: rest =>
    let r := splitOnChar sep rest
    if c = sep then [] :: r
    else
      match r with
      | [] => [[c]]
      | h :: t => (c :: h) :: t

/-- JavaScript `s.split(sep)` for a one-character separator. -/
def jsSplit (s : String) (sep : Char) : List String :=
  (splitOnChar sep s.data).map String.mk

/-- JavaScript `s.trim()` (ASCII whitespace, which covers the protocol). -/
def jsTrim (s : String) : String :=
  ⟨((s.data.dropWhile Char.isWhitespace).reverse.dropWhile Char.isWhitespace).reverse⟩

/-- JavaScript `s.startsWith(pre)`. -/
def jsStartsWith (s pre : String) : Bool :=
  pre.data.isPrefixOf s.data

/-- Drop the first `n` characters of a string. -/
def jsDropChars (s : String) (n : Nat) : String :=
  ⟨s.data.drop n⟩

inductive ToolQueryType where
  | search_reddit
  | search_web
deriving DecidableEq, Repr

/-- A parsed tool query of the Gemini text protocol. -/
structure ToolQuery where
  type : ToolQueryType
  query : String
  subreddit : Option String
deriving DecidableEq, Repr

/-- Parse of a `REDDIT:` line: the prefix is removed (the line starts with
it, so `replace` drops the first 7 characters), the rest is trimmed and
split on `:`; the destructuring takes the first part as query and the
second, when present, as subreddit; both are trimmed. -/
def redditQueryOfLine (line : String) : ToolQuery :=
  let content := jsTrim (jsDropChars line 7)
  let parts := jsSplit content ':'
  ⟨ToolQueryType.search_reddit, jsTrim (parts.headD ""), (parts.get? 1).map jsTrim⟩

/-- Parse of a `WEB:` line: drop the 4-character tag and trim. -/
def webQueryOfLine (line : String) : ToolQuery :=
  ⟨ToolQueryType.search_web, jsTrim (jsDropChars line 4), none⟩

/-- A line the parser recognises as a tool request. -/
def isToolLine (line : String) : Bool :=
  jsStartsWith line "REDDIT:" || jsStartsWith line "WEB:"

/-- The query a recognised line yields. -/
def lineQuery (line : String) : ToolQuery :=
  if jsStartsWith line "REDDIT:" then redditQueryOfLine line else webQueryOfLine line

/-- The line loop of `GeminiService.generateResponse`: `REDDIT:` lines and
`WEB:` lines each push one query; every other line is skipped. -/
def collectToolQueries : List String → List ToolQuery
  | [] => []
  | line :: rest =>
    if jsStartsWith line "REDDIT:" then redditQueryOfLine line :: collectToolQueries rest
    else if jsStartsWith line "WEB:" then webQueryOfLine line :: collectToolQueries rest
    else collectToolQueries rest

/-- The response record of `generateResponse`. -/
structure GeminiResponse where
  message : String
  needsTools : Bool
  toolQueries : List ToolQuery
deriving DecidableEq, Repr

/-- The pure part of `GeminiService.generateResponse` applied to the raw
completion text: when the `SEARCH_NEEDED` sentinel occurs, split into lines
and collect tool queries; otherwise a direct answer.  The function is total:
no line shape can make it fail. -/
def geminiParseResponse (responseText : String) : GeminiResponse :=
  if jsIncludes responseText "SEARCH_NEEDED" then
    ⟨responseText, true, collectToolQueries (jsSplit responseText '\n')⟩
  else
    ⟨responseText, false, []⟩

/-- The Gemini turn of the multi-provider route: `generateResponse` may
throw (error propagates to the failover loop); when it asks for tools
(`needsTools && toolQueries.length > 0`) the tool executor runs (total)
and `generateWithToolResults` produces the final text — via
`makeGeminiRequest`, which throws on a non-ok response and otherwise
returns `data.candidates?.[0]?.content?.parts?.[0]?.text || ''`, so an
absent candidate text becomes the empty string without throwing;
otherwise the first response's message is returned verbatim.
`finalApi` is the candidate text of the final request. -/
def part001GeminiTurn (first : Except String GeminiResponse)
    (finalApi : Except String (Option String)) : Except String String :=
  match first with
  | Except.error e => Except.error e
  | Except.ok g =>
    if g.needsTools && g.toolQueries.length != 0 then
      match finalApi with
      | Except.error e => Except.error e
      | Except.ok text => Except.ok (jsOr text "")
    else Except.ok g.message

/-! ## Reddit collaborator fallback (`lib/reddit.ts`, class version) -/

structure RedditPost where
  title : String
  selftext : String
  score : Int
  num_comments : Nat
  url : String
  subreddit : String
  author : String
  created_utc : Nat
deriving DecidableEq, Repr

structure RedditComment where
  body : String
  score : Int
  author : String
  created_utc : Nat
deriving DecidableEq, Repr

structure RedditSearchResult where
  posts : List RedditPost
  comments : List RedditComment
  subredditsSearched : List String
  sources : List String
deriving DecidableEq, Repr

def foodTypes : List String :=
  ["indian", "chinese", "italian", "mexican", "thai", "japanese", "korean",
    "mediterranean", "american", "french"]

/-- `extractFoodType`: the first listed food type the query contains,
defaulting to "restaurant". -/
def extractFoodType (query : String) : String :=
  match foodTypes.find? (fun t => jsIncludes query t) with
  | some t => t
  | none => "restaurant"

/-- `extractLocation` models the regex
`\b(?:in|near|around)\s+([A-Za-z\s]+?)(?:\s|$|,)` with its lazy capture:
scanning word by word, the first "in"/"near"/"around" whose next word
begins with letters yields that word's leading letters as the location
(the lazy capture stops at the first whitespace, comma or end). -/
def firstLocationWord : List String → Option String
  | [] => none
  | w :: rest =>
    if w = "in" || w = "near" || w = "around" then
      match rest with
      | [] => none
      | loc :: rest2 =>
        let l := loc.takeWhile Char.isAlpha
        if l = "" then firstLocationWord (loc :: rest2) else some l
    else firstLocationWord rest

def extractLocation (query : String) : Option String :=
  firstLocationWord ((jsSplit query ' ').filter (fun w => w ≠ ""))

/-- `RedditService.generateIntelligentFallback`: one simulated post built
from the detected food type and location, with a fixed simulated URL, and
`sources` derived from the simulated posts.  `now` is `Date.now()` in
milliseconds. -/
def generateIntelligentFallback (query : String) (now : Nat) : RedditSearchResult :=
  let queryLower := query.toLower
  let foodType := extractFoodType queryLower
  let location := extractLocation queryLower
  let simulatedPosts : List RedditPost :=
    [{ title := "Best " ++ foodType ++ " restaurants " ++
          (match location with
            | some l => "in " ++ l
            | none => "recommendations") ++ "?",
       selftext := "Looking for authentic " ++ foodType ++ " food " ++
          (match location with
            | some l => "in the " ++ l ++ " area"
            | none => "") ++ ". Any recommendations?",
       score := 15,
       num_comments := 8,
       url := "https://reddit.com/r/food/comments/simulated1",
       subreddit := (match location with
            | some l => l.toLower
            | none => "food"),
       author := "foodie_user",
       created_utc := now / 1000 - 86400 }]
  { posts := simulatedPosts,
    comments := [],
    subredditsSearched := ["simulated_fallback"],
    sources := simulatedPosts.map (·.url) }

/-- `RedditService.searchReddit`: the whole API interaction sits in a `try`
whose catch returns the intelligent fallback, so the function never throws;
`apiOutcome` is the result of the token fetch plus subreddit searches
(`Except.error` covers authentication and network failures). -/
def serviceSearchReddit (query : String) (now : Nat)
    (apiOutcome : Except String RedditSearchResult) : RedditSearchResult :=
  match apiOutcome with
  | Except.ok r => r
  | Except.error _ => generateIntelligentFallback query now

/-! ## Symbolic timing of the tool executor -/

/-- A collaborator call outcome together with the wall-clock milliseconds
it takes to settle. -/
structure TimedOutcome where
  value : Except String CollabResult
  duration : Nat
deriving Repr

/-- Timing of `executeToolCall` of the multi-provider route: an
`AbortController` with a 15000 ms timer is created, but its signal is never
passed to `searchReddit`/`searchWeb`, so the `await` always lasts the full
collaborator duration and the result is whatever the collaborator settled
with.  The unknown-tool throw is immediate. -/
def part001TimedToolCall (toolName : String)
    (redditOutcome webOutcome : TimedOutcome) : ToolExecResult × Nat :=
  let d := if toolName = "search_reddit" then redditOutcome.duration
           else if toolName = "search_web" then webOutcome.duration
           else 0
  (part001ExecuteToolCall toolName redditOutcome.value webOutcome.value, d)

/-- Timing of the inline executor of `route.ts`: the collaborator call is
raced against a 15000 ms rejection timer, so a slower call is replaced by a
thrown timeout at 15000 ms while a faster one settles at its own time. -/
def routeTimedToolCall (toolName : String) (outcome : TimedOutcome)
    (timeoutMsg : String) : RouteToolExec × Nat :=
  if outcome.duration ≤ 15000 then
    (routeExecuteTool toolName true true outcome.value, outcome.duration)
  else
    (routeExecuteTool toolName true true (Except.error timeoutMsg), 15000)

/-- The sequential tool loop of `route.ts`: every requested call is handled
in turn; a timed-out call contributes its error-shaped result and the loop
continues with the remaining calls. -/
def routeToolLoop (calls : List (String × TimedOutcome)) :
    List (RouteToolExec × Nat) :=
  calls.map (fun c => routeTimedToolCall c.1 c.2 (c.1 ++ " timeout"))

/-! ## Concrete inputs used by witnesses -/

/-- Two tool results with an overlapping source. -/
def demoToolResults : List ToolExecResult :=
  [⟨ToolPayload.ok ⟨["r/nyc: A", "r/food: B"]⟩, ["r/nyc: A", "r/food: B"]⟩,
   ⟨ToolPayload.ok ⟨["r/food: B", "web: C"]⟩, ["r/food: B", "web: C"]⟩]

/-- A raw completion using the sentinel protocol, with one line per kind
and one prose line. -/
def demoGeminiText : String :=
  "SEARCH_NEEDED\nREDDIT:Four Charles:FoodNYC\nWEB:best pizza brooklyn\nsome prose"

/-- A message whose role is outside the whitelist. -/
def badRoleMessage : RawMessage := ⟨some "banana", some "fix my car"⟩

/-! # Theorems -/

/-! ## General lemmas about the embedded operations -/

theorem append_ne_empty_left (a b : String) (ha : a ≠ "") : a ++ b ≠ "" := by
  cases a with
  | mk la =>
    cases b with
    | mk lb =>
      intro h
      apply ha
      have h2 : la ++ lb = ([] : List Char) := congrArg String.data h
      have h3 : la = [] := (List.append_eq_nil.mp h2).1
      rw [h3]

theorem jsOr_ne_empty (c : Option String) (d : String) (hd : d ≠ "") :
    jsOr c d ≠ "" := by
  cases c with
  | none => exact hd
  | some s =>
    simp only [jsOr]
    split
    · exact hd
    · next h => exact h

theorem jsIndexOf_append_mem (pre l : List String) (s : String) (h : s ∈ pre) :
    jsIndexOf (pre ++ l) s = jsIndexOf pre s := by
  induction pre with
  | nil => cases h
  | cons t pre ih =>
    by_cases hst : s = t
    · simp [jsIndexOf, hst]
    · have hmem : s ∈ pre := by
        cases h with
        | head => exact absurd rfl hst
        | tail _ h2 => exact h2
      simp [jsIndexOf, hst, ih hmem]

theorem jsIndexOf_lt_length (pre : List String) (s : String) (h : s ∈ pre) :
    jsIndexOf pre s < pre.length := by
  induction pre with
  | nil => cases h
  | cons t pre ih =>
    by_cases hst : s = t
    · simp [jsIndexOf, hst]
    · have hmem : s ∈ pre := by
        cases h with
        | head => exact absurd rfl hst
        | tail _ h2 => exact h2
      simp only [jsIndexOf, hst, if_neg hst, List.length_cons]
      exact Nat.succ_lt_succ (ih hmem)

theorem jsIndexOf_append_not_mem (pre l : List String) (s : String) (h : s ∉ pre) :
    jsIndexOf (pre ++ l) s = pre.length + jsIndexOf l s := by
  induction pre with
  | nil => simp [jsIndexOf]
  | cons t pre ih =>
    have hst : s ≠ t := fun hh => h (hh ▸ List.mem_cons_self t pre)
    have hmem : s ∉ pre := fun hh => h (List.mem_cons_of_mem t hh)
    rw [List.cons_append]
    show (if s = t then 0 else jsIndexOf (pre ++ l) s + 1) = (t :: pre).length + jsIndexOf l s
    rw [if_neg hst, ih hmem, List.length_cons]
    omega

theorem seenContains_iff (seen : List String) (s : String) :
    seenContains seen s = true ↔ s ∈ seen := by
  simp only [seenContains, List.any_eq_true, decide_eq_true_eq]
  constructor
  · rintro ⟨x, hx, rfl⟩
    exact hx
  · intro hmem
    exact ⟨s, hmem, rfl⟩

theorem seenContains_cons (x : String) (seen : List String) (t : String) :
    seenContains (x :: seen) t = (decide (x = t) || seenContains seen t) := by
  simp [seenContains, List.any_cons]

theorem insertOrderDedup_congr (l : List String) :
    ∀ seen₁ seen₂ : List String,
      (∀ t, seenContains seen₁ t = seenContains seen₂ t) →
      insertOrderDedup seen₁ l = insertOrderDedup seen₂ l := by
  induction l with
  | nil => intro seen₁ seen₂ _; rfl
  | cons s rest ih =>
    intro seen₁ seen₂ h
    have hcons : ∀ t, seenContains (s :: seen₁) t = seenContains (s :: seen₂) t := by
      intro t
      rw [seenContains_cons, seenContains_cons, h t]
    cases hb : seenContains seen₂ s with
    | true =>
      rw [insertOrderDedup, insertOrderDedup, h s, hb, if_pos rfl, if_pos rfl]
      exact ih seen₁ seen₂ h
    | false =>
      rw [insertOrderDedup, insertOrderDedup, h s, hb,
        if_neg Bool.false_ne_true, if_neg Bool.false_ne_true]
      rw [ih (s :: seen₁) (s :: seen₂) hcons]

theorem jsUnique_general (rest : List String) :
    ∀ pre : List String,
      ((indexed pre.length rest).filter
          (fun p => jsIndexOf (pre ++ rest) p.2 = p.1)).map Prod.snd
        = insertOrderDedup pre rest := by
  induction rest with
  | nil => intro pre; rfl
  | cons s rest ih =>
    intro pre
    have hsplit : pre ++ s :: rest = (pre ++ [s]) ++ rest := by simp
    have hlen : (pre ++ [s]).length = pre.length + 1 := by simp
    have tail_eq :
        ((indexed (pre.length + 1) rest).filter
            (fun p => jsIndexOf (pre ++ s :: rest) p.2 = p.1)).map Prod.snd
          = insertOrderDedup (pre ++ [s]) rest := by
      have h0 := ih (pre ++ [s])
      rw [hlen] at h0
      rw [hsplit]
      exact h0
    by_cases hs : s ∈ pre
    · have hcond : ¬ jsIndexOf (pre ++ s :: rest) s = pre.length := by
        rw [jsIndexOf_append_mem pre (s :: rest) s hs]
        exact Nat.ne_of_lt (jsIndexOf_lt_length pre s hs)
      have hseen : seenContains pre s = true := (seenContains_iff pre s).mpr hs
      have hstep :
          ((indexed pre.length (s :: rest)).filter
              (fun p => jsIndexOf (pre ++ s :: rest) p.2 = p.1)).map Prod.snd
            = ((indexed (pre.length + 1) rest).filter
              (fun p => jsIndexOf (pre ++ s :: rest) p.2 = p.1)).map Prod.snd := by
        simp only [indexed, List.filter_cons, decide_eq_true_eq, hcond, if_false]
      rw [hstep, tail_eq, insertOrderDedup, hseen, if_pos rfl]
      refine insertOrderDedup_congr rest (pre ++ [s]) pre ?_
      intro t
      by_cases hts : s = t
      · subst hts
        have h1 : seenContains (pre ++ [s]) s = true := by
          refine (seenContains_iff _ _).mpr ?_
          exact List.mem_append.mpr (Or.inl hs)
        rw [h1, hseen]
      · simp only [seenContains, List.any_append, List.any_cons, List.any_nil]
        simp [hts]
    · have hcond : jsIndexOf (pre ++ s :: rest) s = pre.length := by
        rw [jsIndexOf_append_not_mem pre (s :: rest) s hs]
        simp [jsIndexOf]
      have hseen : seenContains pre s = false := by
        cases hb : seenContains pre s with
        | false => rfl
        | true => exact absurd ((seenContains_iff pre s).mp hb) hs
      have hstep :
          ((indexed pre.length (s :: rest)).filter
              (fun p => jsIndexOf (pre ++ s :: rest) p.2 = p.1)).map Prod.snd
            = s :: ((indexed (pre.length + 1) rest).filter
              (fun p => jsIndexOf (pre ++ s :: rest) p.2 = p.1)).map Prod.snd := by
        simp only [indexed, List.filter_cons, decide_eq_true_eq, hcond, if_true,
          List.map_cons]
      rw [hstep, tail_eq, insertOrderDedup, hseen, if_neg Bool.false_ne_true]
      refine congrArg (s :: ·) ?_
      refine insertOrderDedup_congr rest (pre ++ [s]) (s :: pre) ?_
      intro t
      simp [seenContains, List.any_append, List.any_cons, Bool.or_comm]

theorem jsUniqueFilter_eq_dedupFirst (arr : List String) :
    jsUniqueFilter arr = dedupFirst arr := by
  have h := jsUnique_general arr []
  simpa [jsUniqueFilter, dedupFirst] using h

theorem mem_insertOrderDedup (l : List String) :
    ∀ (seen : List String) (t : String),
      t ∈ insertOrderDedup seen l → seenContains seen t = false ∧ t ∈ l := by
  induction l with
  | nil => intro seen t ht; cases ht
  | cons s rest ih =>
    intro seen t ht
    cases hb : seenContains seen s with
    | true =>
      rw [insertOrderDedup, hb, if_pos rfl] at ht
      obtain ⟨h1, h2⟩ := ih seen t ht
      exact ⟨h1, List.mem_cons_of_mem s h2⟩
    | false =>
      rw [insertOrderDedup, hb, if_neg Bool.false_ne_true] at ht
      cases ht with
      | head => exact ⟨hb, List.mem_cons_self s rest⟩
      | tail _ h2 =>
        obtain ⟨h3, h4⟩ := ih (s :: seen) t h2
        rw [seenContains_cons] at h3
        have h5 : seenContains seen t = false := by
          cases hb2 : seenContains seen t with
          | false => rfl
          | true => rw [hb2] at h3; simp at h3
        exact ⟨h5, List.mem_cons_of_mem s h4⟩

theorem nodup_insertOrderDedup (l : List String) :
    ∀ seen : List String, (insertOrderDedup seen l).Nodup := by
  induction l with
  | nil => intro seen; exact List.nodup_nil
  | cons s rest ih =>
    intro seen
    cases hb : seenContains seen s with
    | true =>
      rw [insertOrderDedup, hb, if_pos rfl]
      exact ih seen
    | false =>
      rw [insertOrderDedup, hb, if_neg Bool.false_ne_true]
      refine List.nodup_cons.mpr ⟨?_, ih (s :: seen)⟩
      intro hmem
      have h2 := (mem_insertOrderDedup rest (s :: seen) s hmem).1
      rw [seenContains_cons] at h2
      simp at h2

/-! ## Claim theorems -/

/-- C2: with both providers available, naming "openai" (the second provider
by priority) as preferred makes the failover loop attempt
`[openai, openai]`: the preferred provider is attempted twice, the
displaced first provider `gemini` is never attempted, and when every
OpenAI turn raises, the whole request fails even though the spec-described
attempt order `[openai, gemini]` would have succeeded with `gemini` as the
envelope provider.  This refutes the claimed attempt order and the
at-most-once guarantee; the code contradicts the evident intent of its own
failover loop. -/
theorem preferred_provider_attempt_order_bug :
    getAvailableProviders fullEnv = [geminiProvider, openaiProvider]
    ∧ attemptOrder (getAvailableProviders fullEnv) (some "openai")
        = [openaiProvider, openaiProvider]
    ∧ geminiProvider ∉ attemptOrder (getAvailableProviders fullEnv) (some "openai")
    ∧ specAttemptOrder (getAvailableProviders fullEnv) (some "openai")
        = [openaiProvider, geminiProvider]
    ∧ runFailover openaiAlwaysFails
        (attemptOrder (getAvailableProviders fullEnv) (some "openai"))
        = Except.error "boom"
    ∧ runFailover openaiAlwaysFails
        (specAttemptOrder (getAvailableProviders fullEnv) (some "openai"))
        = Except.ok ("hello", "gemini") :=
  ⟨by decide, by decide, by decide, by decide, rfl, rfl⟩

/-- C10: when the Reddit API interaction fails, `RedditService.searchReddit`
returns the intelligent fallback instead of throwing: one fabricated post,
a non-empty sources list holding the simulated URL, and these sources flow
unchanged through the tool executor into the request's accumulated
sources. -/
theorem searchReddit_failure_fallback (query : String) (now : Nat) (e : String) :
    serviceSearchReddit query now (Except.error e)
        = generateIntelligentFallback query now
    ∧ (generateIntelligentFallback query now).posts.length = 1
    ∧ (generateIntelligentFallback query now).sources
        = ["https://reddit.com/r/food/comments/simulated1"]
    ∧ (generateIntelligentFallback query now).sources ≠ []
    ∧ (part001ExecuteToolCall "search_reddit"
        (Except.ok ⟨(generateIntelligentFallback query now).sources⟩)
        (Except.error "unused")).sources
        = ["https://reddit.com/r/food/comments/simulated1"] := by
  have h3 : (generateIntelligentFallback query now).sources
      = ["https://reddit.com/r/food/comments/simulated1"] := rfl
  refine ⟨rfl, rfl, h3, ?_, rfl⟩
  rw [h3]
  simp

/-- C9 counterexample: the same malformed payload (an empty `messages`
array) submitted at two different times yields two `route.ts` 400 bodies
that differ in their `timestamp` field, so the bodies are not identical. -/
theorem validation_timestamp_cex :
    routeValidationResponse (routeValidate (some ([] : List RawMessage)))
        "2025-01-01T00:00:00.000Z"
      ≠ routeValidationResponse (routeValidate (some ([] : List RawMessage)))
        "2025-01-01T00:00:01.000Z" := by decide

/-- C9 amended: two submissions of the same malformed payload always get
the same 400 status and identical `error` and `details` fields; only the
`timestamp` field of the `route.ts` body varies with submission time, and
the multi-provider route's 400 body (which has no timestamp) is literally
identical. -/
theorem validation_idempotent_amended (t₁ t₂ : String) :
    ((routeValidationResponse (routeValidate (some ([] : List RawMessage))) t₁).map
        (fun r => (r.1, r.2.error, r.2.details)))
      = ((routeValidationResponse (routeValidate (some ([] : List RawMessage))) t₂).map
        (fun r => (r.1, r.2.error, r.2.details)))
    ∧ part001ValidationResponse (part001Validate (some ([] : List RawMessage)))
        = some (400, "Messages array is required and cannot be empty.") :=
  ⟨rfl, rfl⟩

/-- C5 counterexample: in the multi-provider route, a turn that executed
tool calls and whose final generation call throws does not return an
apology: the error propagates out of the turn to the failover loop. -/
theorem final_call_error_propagates_cex :
    part001OpenAITurn (Except.ok ⟨some "draft", ["search_web"]⟩)
        (Except.error "final call failed")
      = Except.error "final call failed" := rfl

/-- C5 amended: in `route.ts` a failing final generation call is replaced
by a fixed apology and a successful one always yields non-empty text; in
the multi-provider route only a missing or empty `content` is replaced by
the apology, while a thrown final call propagates out of the turn. -/
theorem final_call_failure_amended :
    (∀ e : String, routeFinalMessage (Except.error e) = routeCatchApology)
    ∧ routeCatchApology ≠ ""
    ∧ (∀ c : Option String, routeFinalMessage (Except.ok c) ≠ "")
    ∧ part001FinalMessage (Except.ok none) = Except.ok part001Apology
    ∧ (∀ e : String, part001FinalMessage (Except.error e) = Except.error e) := by
  refine ⟨fun e => rfl, by decide, ?_, rfl, fun e => rfl⟩
  intro c
  exact jsOr_ne_empty c routeEmptyApology (by decide)

/-- C3 counterexample: the inline executor of `route.ts` answers an unknown
tool name with a payload that carries only the error message and no
fallback hint string, contradicting the claim that every failure payload
contains both. -/
theorem unknown_tool_no_fallback_cex :
    routeExecuteTool "do_magic" true true (Except.ok ⟨[]⟩)
      = RouteToolExec.failure "Unknown tool: do_magic" none := by decide

/-- C3 amended: `executeToolCall` of the multi-provider route never throws
and, for a thrown collaborator error (including a thrown timeout) and for
an unknown tool name, returns an error payload with a human-readable error
message and a non-empty fallback hint and an empty sources list; the inline
executor of `route.ts` does the same for thrown errors and timeouts, but
its unknown-tool payload carries only the error message, without a
fallback hint. -/
theorem tool_executor_error_shape_amended :
    (∀ (msg : String) (w : Except String CollabResult),
        part001ExecuteToolCall "search_reddit" (Except.error msg) w
          = ⟨ToolPayload.err ⟨"Search temporarily unavailable: " ++ msg,
              part001FallbackText "search_reddit"⟩, []⟩)
    ∧ (∀ (msg : String) (r : Except String CollabResult),
        part001ExecuteToolCall "search_web" r (Except.error msg)
          = ⟨ToolPayload.err ⟨"Search temporarily unavailable: " ++ msg,
              part001FallbackText "search_web"⟩, []⟩)
    ∧ (∀ (name : String) (r w : Except String CollabResult),
        name ∉ (["search_reddit", "search_web"] : List String) →
        part001ExecuteToolCall name r w
          = ⟨ToolPayload.err
              ⟨"Search temporarily unavailable: " ++ ("Unknown tool: " ++ name),
                part001FallbackText name⟩, []⟩)
    ∧ (∀ name : String, part001FallbackText name ≠ "")
    ∧ (∀ msg : String,
        routeExecuteTool "search_reddit" true true (Except.error msg)
          = RouteToolExec.failure ("search_reddit failed: " ++ msg)
              (some "Providing general recommendations based on available knowledge"))
    ∧ (∀ name : String,
        name ∉ (["search_reddit", "search_web"] : List String) →
        ∀ o : Except String CollabResult,
        routeExecuteTool name true true o
          = RouteToolExec.failure ("Unknown tool: " ++ name) none) := by
  refine ⟨fun msg w => rfl, fun msg r => rfl, ?_, ?_, fun msg => rfl, ?_⟩
  · intro name r w h
    have h1 : ¬ name = "search_reddit" := fun hh => h (by rw [hh]; simp)
    have h2 : ¬ name = "search_web" := fun hh => h (by rw [hh]; simp)
    simp [part001ExecuteToolCall, h1, h2]
  · intro name
    refine append_ne_empty_left _ _ (append_ne_empty_left _ _ ?_)
    decide
  · intro name h o
    have h1 : ¬ name = "search_reddit" := fun hh => h (by rw [hh]; simp)
    have h2 : ¬ name = "search_web" := fun hh => h (by rw [hh]; simp)
    simp [routeExecuteTool, h1, h2]

/-- C3 witness: the amended theorem applied to the unknown tool name
"do_magic", whose hypotheses hold by evaluation. -/
theorem tool_executor_error_shape_witness :
    ("do_magic" ∉ (["search_reddit", "search_web"] : List String))
    ∧ part001ExecuteToolCall "do_magic" (Except.ok ⟨[]⟩) (Except.ok ⟨[]⟩)
        = ⟨ToolPayload.err
            ⟨"Search temporarily unavailable: " ++ ("Unknown tool: " ++ "do_magic"),
              part001FallbackText "do_magic"⟩, []⟩ :=
  ⟨by decide,
    tool_executor_error_shape_amended.2.2.1 "do_magic"
      (Except.ok ⟨[]⟩) (Except.ok ⟨[]⟩) (by decide)⟩

/-- C8: the 15-second budget is real in `route.ts` (the `Promise.race`
settles every tool call within 15000 ms, and the sequential loop still
handles every sibling call), but in the multi-provider route's
`executeToolCall` the `AbortController`'s 15 s timer aborts a signal that
is never passed to the collaborator call: a collaborator that resolves
successfully after 20000 ms is awaited in full and its success result is
returned, with nothing converted to a failure at 15 s. -/
theorem tool_budget_dead_timer :
    part001TimedToolCall "search_reddit"
        ⟨Except.ok ⟨["https://reddit.com/r/food/x"]⟩, 20000⟩ ⟨Except.ok ⟨[]⟩, 0⟩
      = (⟨ToolPayload.ok ⟨["https://reddit.com/r/food/x"]⟩,
          ["https://reddit.com/r/food/x"]⟩, 20000)
    ∧ 15000 < 20000
    ∧ (∀ (name : String) (o : TimedOutcome) (msg : String),
        (routeTimedToolCall name o msg).2 ≤ 15000)
    ∧ (∀ calls : List (String × TimedOutcome),
        (routeToolLoop calls).length = calls.length) := by
  refine ⟨by decide, by decide, ?_, fun calls => by simp [routeToolLoop]⟩
  intro name o msg
  by_cases h : o.duration ≤ 15000
  · simp only [routeTimedToolCall, if_pos h]
    exact h
  · simp only [routeTimedToolCall, if_neg h]
    exact Nat.le_refl 15000

theorem checkMessages_ne_ok (ms : List RawMessage)
    (h : ∃ m ∈ ms, m.role = none ∨ m.content = none ∨
      ∃ r, m.role = some r ∧ r ∉ validRoles) :
    ∀ i : Nat, checkMessages i ms ≠ RouteValidation.ok := by
  induction ms with
  | nil => simp at h
  | cons m rest ih =>
    intro i
    obtain ⟨m', hm', hbad⟩ := h
    by_cases h1 : (!truthy m.role || !truthy m.content) = true
    · rw [checkMessages, if_pos h1]
      simp
    · have hrole : truthy m.role = true := by
        cases hb : truthy m.role with
        | true => rfl
        | false => exact absurd (by simp [hb]) h1
      have hcontent : truthy m.content = true := by
        cases hb : truthy m.content with
        | true => rfl
        | false => exact absurd (by simp [hb]) h1
      rw [checkMessages, if_neg h1]
      cases List.mem_cons.mp hm' with
      | inl heq =>
        subst heq
        rcases hbad with hr | hc | ⟨r, hr, hnr⟩
        · rw [hr] at hrole
          simp [truthy] at hrole
        · rw [hc] at hcontent
          simp [truthy] at hcontent
        · have hcontains : jsArrayIncludes validRoles (m'.role.getD "") = false := by
            rw [hr]
            simp only [Option.getD_some]
            cases hb : jsArrayIncludes validRoles r with
            | false => rfl
            | true =>
              exfalso
              apply hnr
              simpa [jsArrayIncludes, List.any_eq_true] using hb
          rw [if_pos (by rw [hcontains]; rfl)]
          simp
      | inr hmem =>
        by_cases h2 : (!(jsArrayIncludes validRoles (m.role.getD ""))) = true
        · rw [if_pos h2]
          simp
        · rw [if_neg h2]
          exact ih ⟨m', hmem, hbad⟩ (i + 1)

/-- C4 counterexample: a request whose only message has the unknown role
"banana" passes the multi-provider route's validation (which only checks
that the messages array exists and is non-empty), so no 400 is returned
and the handler proceeds to the provider phase, while `route.ts` rejects
the same request with the role error. -/
theorem unknown_role_passes_validation_cex :
    part001Validate (some [badRoleMessage]) = RouteValidation.ok
    ∧ routeValidate (some [badRoleMessage])
        = RouteValidation.badRole 0 "banana" := by decide

/-- C4 amended: `route.ts` rejects an empty messages array, an item with a
missing (or empty) role or content, and an item with a role outside
{user, assistant, system} before any provider call (its completion call
runs only when validation passes); the multi-provider route rejects only a
missing or empty messages array and lets every non-empty list of items,
whatever their shapes and roles, through to the provider phase. -/
theorem request_validation_amended (ms : List RawMessage) :
    (malformedList ms →
        routeValidate (some ms) ≠ RouteValidation.ok
        ∧ routeProviderAttempts (some ms) = 0)
    ∧ (ms ≠ [] → part001Validate (some ms) = RouteValidation.ok) := by
  constructor
  · intro hm
    have hne : routeValidate (some ms) ≠ RouteValidation.ok := by
      cases hm with
      | inl hempty =>
        subst hempty
        simp [routeValidate]
      | inr hbad =>
        have hnil : ms ≠ [] := by
          obtain ⟨m', hm', _⟩ := hbad
          intro hh
          rw [hh] at hm'
          cases hm'
        rw [routeValidate,
          if_neg (fun hh => hnil (List.length_eq_zero.mp hh))]
        exact checkMessages_ne_ok ms hbad 0
    refine ⟨hne, ?_⟩
    rw [routeProviderAttempts]
    cases hv : routeValidate (some ms) with
    | ok => exact absurd hv hne
    | badArray => rfl
    | badFormat i => rfl
    | badRole i r => rfl
  · intro hne
    rw [part001Validate,
      if_neg (fun hh => hne (List.length_eq_zero.mp hh))]

/-- C4 witness: the amended theorem applied to the single-bad-role request,
with the malformedness hypothesis discharged concretely. -/
theorem request_validation_amended_witness :
    malformedList [badRoleMessage]
    ∧ routeValidate (some [badRoleMessage]) ≠ RouteValidation.ok := by
  have hmal : malformedList [badRoleMessage] := by
    refine Or.inr ⟨badRoleMessage, by simp, Or.inr (Or.inr ⟨"banana", rfl, by decide⟩)⟩
  exact ⟨hmal, ((request_validation_amended [badRoleMessage]).1 hmal).1⟩

/-- C6 counterexample: a turn whose first generation call returns `null`
content and no tool calls completes (reaches DONE) with the empty string
as its message, in both route versions; and a Gemini turn that did execute
a tool call also reaches DONE with the empty string when the final
request's candidate text is absent (`text || ''` yields `''` without
throwing). -/
theorem empty_done_message_cex :
    part001OpenAITurn (Except.ok ⟨none, []⟩) (Except.ok none) = Except.ok ""
    ∧ routeTurn ⟨none, []⟩ (Except.ok none) = ""
    ∧ part001GeminiTurn
        (Except.ok ⟨"SEARCH_NEEDED\nREDDIT:pizza", true,
          [⟨ToolQueryType.search_reddit, "pizza", none⟩]⟩)
        (Except.ok none)
        = Except.ok "" := ⟨rfl, rfl, rfl⟩

/-- C6 amended: a DONE turn can carry an empty message in exactly two
ways: a first response with empty content and no tool calls is returned
verbatim, and a Gemini turn that executed tools returns an empty message
precisely when the final request's candidate text is absent or empty.  On
the OpenAI tool-calling path of both routes the DONE message is non-empty
(the model's non-empty content or a fixed apology). -/
theorem turn_done_nonempty_amended (r : FirstResponse) (g : GeminiResponse)
    (fin : Except String (Option String)) (h : r.toolCalls ≠ [])
    (hg : g.toolQueries ≠ []) :
    (∀ m : String,
        part001OpenAITurn (Except.ok r) fin = Except.ok m → m ≠ "")
    ∧ routeTurn r fin ≠ ""
    ∧ (∀ m : String, g.needsTools = true →
        part001GeminiTurn (Except.ok g) fin = Except.ok m →
        (m = "" ↔ fin = Except.ok none ∨ fin = Except.ok (some ""))) := by
  have hne : r.toolCalls.isEmpty = false := by
    cases hl : r.toolCalls with
    | nil => exact absurd hl h
    | cons a l => rfl
  refine ⟨?_, ?_, ?_⟩
  · intro m hm
    rw [part001OpenAITurn, hne] at hm
    simp only [Bool.false_eq_true, if_false] at hm
    cases fin with
    | error e => cases hm
    | ok c =>
      rw [part001FinalMessage] at hm
      have hmc : m = jsOr c part001Apology := (Except.ok.injEq _ _).mp hm.symm
      rw [hmc]
      exact jsOr_ne_empty c part001Apology (by decide)
  · rw [routeTurn, hne]
    simp only [Bool.false_eq_true, if_false]
    cases fin with
    | error e =>
      rw [show routeFinalMessage (Except.error e) = routeCatchApology from rfl]
      decide
    | ok c => exact jsOr_ne_empty c routeEmptyApology (by decide)
  · intro m hneeds hm
    have hcond : (g.needsTools && g.toolQueries.length != 0) = true := by
      rw [hneeds]
      simp [List.length_eq_zero, hg]
    have hunfold : part001GeminiTurn (Except.ok g) fin
        = if (g.needsTools && g.toolQueries.length != 0) = true then
            (match fin with
              | Except.error e => Except.error e
              | Except.ok text => Except.ok (jsOr text ""))
          else Except.ok g.message := rfl
    rw [hunfold, hcond, if_pos rfl] at hm
    cases fin with
    | error e => cases hm
    | ok text =>
      have hmc : m = jsOr text "" := (Except.ok.injEq _ _).mp hm.symm
      rw [hmc]
      cases text with
      | none => simp [jsOr]
      | some s =>
        by_cases hs : s = ""
        · subst hs
          simp [jsOr]
        · simp [jsOr, hs]

/-- C6 witness: the amended theorem applied to a turn with one tool call
whose final completion returns `null` content; the OpenAI turn reaches
DONE with the (non-empty) apology as its message. -/
theorem turn_done_nonempty_witness :
    (["search_reddit"] : List String) ≠ []
    ∧ ([⟨ToolQueryType.search_reddit, "pizza", none⟩] : List ToolQuery) ≠ []
    ∧ part001OpenAITurn (Except.ok ⟨none, ["search_reddit"]⟩) (Except.ok none)
        = Except.ok part001Apology
    ∧ part001Apology ≠ "" :=
  ⟨by decide, by decide, rfl,
    (turn_done_nonempty_amended ⟨none, ["search_reddit"]⟩
      ⟨"SEARCH_NEEDED\nREDDIT:pizza", true,
        [⟨ToolQueryType.search_reddit, "pizza", none⟩]⟩
      (Except.ok none) (by decide) (by decide)).1 part001Apology rfl⟩

theorem collect_eq_filter_map (lines : List String) :
    collectToolQueries lines = (lines.filter isToolLine).map lineQuery := by
  induction lines with
  | nil => rfl
  | cons line rest ih =>
    by_cases h1 : jsStartsWith line "REDDIT:" = true
    · have ht : isToolLine line = true := by simp [isToolLine, h1]
      rw [collectToolQueries, if_pos h1, List.filter_cons, if_pos ht,
        List.map_cons, ih, lineQuery, if_pos h1]
    · by_cases h2 : jsStartsWith line "WEB:" = true
      · have ht : isToolLine line = true := by simp [isToolLine, h2]
        rw [collectToolQueries, if_neg h1, if_pos h2, List.filter_cons,
          if_pos ht, List.map_cons, ih, lineQuery, if_neg h1]
      · have ht : ¬ isToolLine line = true := by simp [isToolLine, h1, h2]
        rw [collectToolQueries, if_neg h1, if_neg h2, List.filter_cons,
          if_neg ht, ih]

theorem subOccurs_single_false {a : Char} {l : List Char}
    (h : subOccurs [a] l = false) : a ∉ l := by
  induction l with
  | nil => simp
  | cons c rest ih =>
    rw [subOccurs] at h
    have hparts := Bool.or_eq_false_iff.mp h
    have hne : a ≠ c := by
      intro hh
      subst hh
      simp [List.isPrefixOf] at hparts
    intro hmem
    cases List.mem_cons.mp hmem with
    | inl heq => exact hne heq
    | inr hmem2 => exact ih hparts.2 hmem2

theorem splitOnChar_no_sep (sep : Char) (l : List Char) (h : sep ∉ l) :
    splitOnChar sep l = [l] := by
  induction l with
  | nil => rfl
  | cons c rest ih =>
    have hne : c ≠ sep := fun hh => h (hh ▸ List.mem_cons_self c rest)
    have hrest : sep ∉ rest := fun hh => h (List.mem_cons_of_mem c hh)
    rw [splitOnChar]
    simp only [if_neg hne, ih hrest]

/-- C7: a raw completion containing the `SEARCH_NEEDED` sentinel is parsed
(totally, the parser cannot throw) into exactly one tool query per line
starting with `REDDIT:` or `WEB:`; every other line is skipped, and a
`REDDIT:` line whose content has no second colon-separated field yields a
query with no subreddit rather than a failure. -/
theorem gemini_sentinel_parse (text : String)
    (h : jsIncludes text "SEARCH_NEEDED" = true) :
    (geminiParseResponse text).needsTools = true
    ∧ (geminiParseResponse text).message = text
    ∧ (geminiParseResponse text).toolQueries
        = ((jsSplit text '\n').filter isToolLine).map lineQuery
    ∧ (geminiParseResponse text).toolQueries.length
        = ((jsSplit text '\n').filter isToolLine).length
    ∧ (∀ line : String, jsIncludes (jsTrim (jsDropChars line 7)) ":" = false →
        (redditQueryOfLine line).subreddit = none) := by
  have hg : geminiParseResponse text
      = ⟨text, true, collectToolQueries (jsSplit text '\n')⟩ := by
    rw [geminiParseResponse, if_pos h]
  refine ⟨by rw [hg], by rw [hg], ?_, ?_, ?_⟩
  · rw [hg]
    exact collect_eq_filter_map _
  · rw [hg]
    rw [collect_eq_filter_map, List.length_map]
  · intro line hnc
    have hnotin : ':' ∉ (jsTrim (jsDropChars line 7)).data :=
      subOccurs_single_false (by simpa [jsIncludes] using hnc)
    rw [redditQueryOfLine]
    simp only [jsSplit, splitOnChar_no_sep ':' _ hnotin, List.map_cons,
      List.map_nil]
    rfl

/-- C7 witness: the parser theorem applied to a concrete sentinel text with
one line of each kind and one prose line. -/
theorem gemini_sentinel_parse_witness :
    jsIncludes demoGeminiText "SEARCH_NEEDED" = true
    ∧ (geminiParseResponse demoGeminiText).needsTools = true
    ∧ (geminiParseResponse demoGeminiText).toolQueries
        = [⟨ToolQueryType.search_reddit, "Four Charles", some "FoodNYC"⟩,
           ⟨ToolQueryType.search_web, "best pizza brooklyn", none⟩] :=
  ⟨by decide, (gemini_sentinel_parse demoGeminiText (by decide)).1, by decide⟩

/-- C1: in the multi-provider route the envelope's sources are exactly the
concatenated tool-result sources with duplicates removed keeping the first
occurrence; in `route.ts` the same holds whenever no accumulated source is
the empty string (its cleanup additionally drops empty strings); and the
result never contains a duplicate. -/
theorem envelope_sources_dedup (results : List ToolExecResult) :
    part001FinalSources results = dedupFirst (concatSources results)
    ∧ ((∀ s ∈ concatSources results, s ≠ "") →
        routeFinalSources results = dedupFirst (concatSources results))
    ∧ (dedupFirst (concatSources results)).Nodup := by
  refine ⟨jsUniqueFilter_eq_dedupFirst _, ?_, nodup_insertOrderDedup _ _⟩
  intro h
  rw [routeFinalSources, List.filter_eq_self.mpr]
  intro a ha
  simpa using h a ha

/-- C1 witness: the deduplication theorem applied to two concrete tool
results sharing a source; all sources are non-empty, so both routes agree
with the first-occurrence deduplication of the concatenation. -/
theorem envelope_sources_dedup_witness :
    (∀ s ∈ concatSources demoToolResults, s ≠ "")
    ∧ routeFinalSources demoToolResults = dedupFirst (concatSources demoToolResults)
    ∧ dedupFirst (concatSources demoToolResults)
        = ["r/nyc: A", "r/food: B", "web: C"] :=
  ⟨by decide, (envelope_sources_dedup demoToolResults).2.1 (by decide), by decide⟩

end RestaurantRec



